import Mathlib

/-!
# Modbus RTU master-side frame codec

A shallow embedding of `src/src/modbus.cpp` (class `ModbusSlave`, declared in
`src/include/modbus.h`) together with the properties of its frame layout,
length formulas, response validation and register extraction.

Conventions of the embedding.

* A `byte *` argument is a `Buffer`: a map from offsets to byte values.  A store
  through the pointer is `Buffer.store`; nothing else changes a buffer.
* `Arduino.h` is not among the sources, so the width of `unsigned int` (the
  Arduino `word`) and of `size_t` is a parameter, `Target.bits`.  Every
  `unsigned int` or `size_t` operation of the source is reduced modulo
  `2 ^ bits` where the source performs it.
* `crc16.h` is not among the sources either: the CRC primitive is the structure
  `Crc`, whose two operations follow the description given in the
  specification.
-/

namespace Modbus

/-! ## Integer widths -/

/-- The compilation target: `bits` is the width of `unsigned int` (the type behind
the Arduino `word`) and of `size_t`.  The C standard guarantees at least 16 bits. -/
structure Target where
  bits : Nat
  wide : 16 ≤ bits

/-- An 8-bit AVR board (Arduino Uno): `unsigned int` and `size_t` are 16 bits wide. -/
def Target.avr : Target := ⟨16, Nat.le_refl 16⟩

/-- A 32-bit core (ARM, ESP): `unsigned int` and `size_t` are 32 bits wide. -/
def Target.arm : Target := ⟨32, by decide⟩

/-- The value of an `unsigned int` or `size_t` expression whose mathematical value is `x`. -/
def Target.wrap (t : Target) (x : Nat) : Nat := x % 2 ^ t.bits

/-- Unsigned subtraction `a - b` at the width of the target. -/
def Target.sub (t : Target) (a b : Nat) : Nat :=
  (a % 2 ^ t.bits + (2 ^ t.bits - b % 2 ^ t.bits)) % 2 ^ t.bits

/-! ## Buffers -/

/-- The memory behind a `byte *` (or `word *`): the value stored at each offset. -/
abbrev Buffer := Nat → Nat

/-- The assignment `message[index] = value`. -/
def Buffer.store (message : Buffer) (index value : Nat) : Buffer :=
  fun j => if j = index then value else message j

/-- The first `length` bytes of a buffer, in order. -/
def Buffer.bytes (message : Buffer) (length : Nat) : List Nat :=
  (List.range length).map message

/-! ## The CRC primitive -/

/-- Modelled from the spec: the CRC primitive of `crc16.h`, which is not among the
sources.  `check flag bytes` is the pair of check bytes, in the order in which they
are stored, that the primitive computes over `bytes`; `flag` is the last argument of
the two operations, which the codec always passes as `false`. -/
structure Crc where
  check : Bool → List Nat → Nat × Nat

/-- Modelled from the spec: `append_crc(dest, src, length)` computes the check value
over `length` bytes of `src` and writes it as the two bytes following `length` into
`dest`.  The codec only calls it with `dest` and `src` the same buffer. -/
def Crc.AddCrcModbus (k : Crc) (dest src : Buffer) (length : Nat) (flag : Bool) : Buffer :=
  let crc := k.check flag (src.bytes length)
  (dest.store length crc.1).store (length + 1) crc.2

/-- Modelled from the spec: `validate_crc(buffer, total_length)` recomputes the check
value over `total_length - 2` bytes and compares it to the trailing 2 bytes, returning
true iff they match. -/
def Crc.ValidateCrcModbus (k : Crc) (buffer : Buffer) (total_length : Nat) (flag : Bool) : Bool :=
  let crc := k.check flag (buffer.bytes (total_length - 2))
  buffer (total_length - 2) == crc.1 && buffer (total_length - 2 + 1) == crc.2

/-- Modelled from the spec: one bit step of the reflected CRC-16 with polynomial
`0xA001`, part of the CRC primitive of `crc16.h`. -/
def crc16Bit (crc : Nat) : Nat :=
  if crc % 2 = 1 then (crc >>> 1) ^^^ 0xA001 else crc >>> 1

/-- Modelled from the spec: one byte step (eight bit steps) of the reflected CRC-16 with
polynomial `0xA001`, part of the CRC primitive of `crc16.h`. -/
def crc16Byte (crc byte : Nat) : Nat :=
  crc16Bit (crc16Bit (crc16Bit (crc16Bit (crc16Bit (crc16Bit (crc16Bit (crc16Bit
    (crc ^^^ byte))))))))

/-- Modelled from the spec: the Modbus RTU CRC-16 (polynomial `0xA001`, reflected,
initial value `0xFFFF`) of a byte sequence. -/
def crc16Modbus (bytes : List Nat) : Nat :=
  bytes.foldl crc16Byte 0xFFFF

/-- Modelled from the spec: the Modbus RTU instance of the CRC primitive.  The check
bytes are stored low byte first, as on the wire of Modbus RTU, unless the flag asks
for the opposite order. -/
def Crc.modbus : Crc :=
  ⟨fun flag bytes =>
    let crc := crc16Modbus bytes
    if flag then (crc / 256 % 256, crc % 256) else (crc % 256, crc / 256 % 256)⟩

/-! ## Constants of `modbus.cpp` -/

@[simp] abbrev kSizeOfByte : Nat := 8

@[simp] abbrev kSlaveIdMessageIndex : Nat := 0
@[simp] abbrev kFunctionCodeMessageIndex : Nat := 1
@[simp] abbrev kAddressUpperMessageIndex : Nat := 2
@[simp] abbrev kAddressLowerMessageIndex : Nat := 3
@[simp] abbrev kNumberOfRegistersUpperMessageIndex : Nat := 4
@[simp] abbrev kNumberOfRegistersLowerMessageIndex : Nat := 5

@[simp] abbrev kWriteDataLengthMessageIndex : Nat := 6
@[simp] abbrev kWriteRegisterValueUpperMessageIndex : Nat := 7
@[simp] abbrev kWriteRegisterValueLowerMessageIndex : Nat := 8

@[simp] abbrev kWriteResponseMessageLength : Nat := 8

@[simp] abbrev kReadMessageLength : Nat := 8

@[simp] abbrev kReadResponseDataLengthMessageIndex : Nat := 2
@[simp] abbrev kReadResponseRegisterValueUpperMessageIndex : Nat := 3
@[simp] abbrev kReadResponseRegisterValueLowerMessageIndex : Nat := 4

@[simp] abbrev kCrcLength : Nat := 2

/-! ## The codec -/

/-- The two private fields of `class ModbusSlave`, both `uint8_t`. -/
structure ModbusSlave where
  slave_id_ : Nat
  broadcast_id_ : Nat

namespace ModbusSlave

/-- `GetReadMessageLength()`. -/
def GetReadMessageLength : Nat :=
  kReadMessageLength

/-- `GetReadResponseMessageLength(number_of_registers)`: the product and the sum are
`unsigned int` operations, the final sum is a `size_t` operation. -/
def GetReadResponseMessageLength (t : Target) (number_of_registers : Nat) : Nat :=
  let data_length := t.wrap (t.wrap (2 * number_of_registers) + 1)
  t.wrap (t.wrap (kReadResponseDataLengthMessageIndex + data_length) + kCrcLength)

/-- `GetWriteMessageLength(number_of_registers)`. -/
def GetWriteMessageLength (t : Target) (number_of_registers : Nat) : Nat :=
  let data_length := t.wrap (t.wrap (2 * number_of_registers) + 1)
  t.wrap (t.wrap (kWriteDataLengthMessageIndex + data_length) + kCrcLength)

/-- `GetWriteResponseMessageLength()`. -/
def GetWriteResponseMessageLength : Nat :=
  kWriteResponseMessageLength

/-- The body of the `for` loop of `ConstructWriteMessage` for one `register_number`. -/
def writeRegister (t : Target) (register_values : Buffer) (message : Buffer)
    (register_number : Nat) : Buffer :=
  let upper_register_value := (register_values register_number >>> kSizeOfByte) &&& 0xFF
  let lower_register_value := register_values register_number &&& 0xFF
  let message := message.store
    (t.wrap (kWriteRegisterValueUpperMessageIndex + t.wrap (register_number * 2)))
    upper_register_value
  message.store
    (t.wrap (kWriteRegisterValueLowerMessageIndex + t.wrap (register_number * 2)))
    lower_register_value

/-- `ConstructWriteMessage(message, function_code, address, number_of_registers,
register_values, broadcast)`; the result is the buffer after the call. -/
def ConstructWriteMessage (t : Target) (k : Crc) (self : ModbusSlave) (message : Buffer)
    (function_code address number_of_registers : Nat) (register_values : Buffer)
    (broadcast : Bool) : Buffer :=
  let message :=
    if broadcast then message.store kSlaveIdMessageIndex self.broadcast_id_
    else message.store kSlaveIdMessageIndex self.slave_id_
  let address_upper := (address >>> kSizeOfByte) &&& 0xFF
  let address_lower := address &&& 0xFF
  let number_of_registers_upper := (number_of_registers >>> kSizeOfByte) &&& 0xFF
  let number_of_registers_lower := number_of_registers &&& 0xFF
  let data_length := t.wrap (2 * number_of_registers) % 256
  let message := message.store kFunctionCodeMessageIndex function_code
  let message := message.store kAddressUpperMessageIndex address_upper
  let message := message.store kAddressLowerMessageIndex address_lower
  let message := message.store kNumberOfRegistersUpperMessageIndex number_of_registers_upper
  let message := message.store kNumberOfRegistersLowerMessageIndex number_of_registers_lower
  let message := message.store kWriteDataLengthMessageIndex data_length
  let message := (List.range number_of_registers).foldl (writeRegister t register_values) message
  k.AddCrcModbus message message
    (t.sub (GetWriteMessageLength t number_of_registers) kCrcLength) false

/-- `ValidateWriteResponse(message, function_code, address, number_of_registers,
broadcast)`. -/
def ValidateWriteResponse (k : Crc) (self : ModbusSlave) (message : Buffer)
    (function_code address number_of_registers : Nat) (broadcast : Bool) : Bool :=
  if (if broadcast then message kSlaveIdMessageIndex ≠ self.broadcast_id_
      else message kSlaveIdMessageIndex ≠ self.slave_id_) then false
  else if message kFunctionCodeMessageIndex ≠ function_code then false
  else
    let address_upper := (address >>> kSizeOfByte) &&& 0xFF
    let address_lower := address &&& 0xFF
    if message kAddressUpperMessageIndex ≠ address_upper then false
    else if message kAddressLowerMessageIndex ≠ address_lower then false
    else
      let number_of_registers_upper := (number_of_registers >>> kSizeOfByte) &&& 0xFF
      let number_of_registers_lower := number_of_registers &&& 0xFF
      if message kNumberOfRegistersUpperMessageIndex ≠ number_of_registers_upper then false
      else if message kNumberOfRegistersLowerMessageIndex ≠ number_of_registers_lower then false
      else k.ValidateCrcModbus message GetWriteResponseMessageLength false

/-- `ConstructReadMessage(message, function_code, address, number_of_registers,
broadcast)`; the result is the buffer after the call. -/
def ConstructReadMessage (t : Target) (k : Crc) (self : ModbusSlave) (message : Buffer)
    (function_code address number_of_registers : Nat) (broadcast : Bool) : Buffer :=
  let message :=
    if broadcast then message.store kSlaveIdMessageIndex self.broadcast_id_
    else message.store kSlaveIdMessageIndex self.slave_id_
  let address_upper := (address >>> kSizeOfByte) &&& 0xFF
  let address_lower := address &&& 0xFF
  let number_of_registers_upper := (number_of_registers >>> kSizeOfByte) &&& 0xFF
  let number_of_registers_lower := number_of_registers &&& 0xFF
  let message := message.store kFunctionCodeMessageIndex function_code
  let message := message.store kAddressUpperMessageIndex address_upper
  let message := message.store kAddressLowerMessageIndex address_lower
  let message := message.store kNumberOfRegistersUpperMessageIndex number_of_registers_upper
  let message := message.store kNumberOfRegistersLowerMessageIndex number_of_registers_lower
  k.AddCrcModbus message message (t.sub GetReadMessageLength kCrcLength) false

/-- `ValidateReadResponse(message, function_code, number_of_registers, broadcast)`:
`data_length` is the `unsigned int` product converted to `size_t`. -/
def ValidateReadResponse (t : Target) (k : Crc) (self : ModbusSlave) (message : Buffer)
    (function_code number_of_registers : Nat) (broadcast : Bool) : Bool :=
  if (if broadcast then message kSlaveIdMessageIndex ≠ self.broadcast_id_
      else message kSlaveIdMessageIndex ≠ self.slave_id_) then false
  else if message kFunctionCodeMessageIndex ≠ function_code then false
  else
    let data_length := t.wrap (number_of_registers * 2)
    if message kReadResponseDataLengthMessageIndex ≠ data_length then false
    else k.ValidateCrcModbus message (GetReadResponseMessageLength t number_of_registers) false

/-- The body of the `for` loop of `GetReadRegisters` for one index `i`: the two
operands are joined by the logical `||`, whose result is `1` or `0`. -/
def readRegister (t : Target) (message : Buffer) (register_value : Buffer) (i : Nat) : Buffer :=
  register_value.store i
    (if message (t.wrap (kReadResponseRegisterValueUpperMessageIndex + t.wrap (i * 2)))
          <<< kSizeOfByte ≠ 0
        ∨ message (t.wrap (kReadResponseRegisterValueLowerMessageIndex + t.wrap (i * 2))) ≠ 0
     then 1 else 0)

/-- `GetReadRegisters(message, number_of_registers, register_value)`; the result is
the output array after the call. -/
def GetReadRegisters (t : Target) (message : Buffer) (number_of_registers : Nat)
    (register_value : Buffer) : Buffer :=
  (List.range number_of_registers).foldl (readRegister t message) register_value

end ModbusSlave

/-! ## Calls on a codec -/

open ModbusSlave

/-- The identifier a frame is addressed to: `broadcast_id_` under the broadcast flag,
`slave_id_` otherwise. -/
def ModbusSlave.expectedId (self : ModbusSlave) (broadcast : Bool) : Nat :=
  if broadcast then self.broadcast_id_ else self.slave_id_

/-- The bytes a write request holds before its check bytes are appended: the six
header bytes, the byte count, then the register values, upper byte first; offsets from
`7 + 2 * n` on are those of the buffer the frame is built in. -/
def writeBody (self : ModbusSlave) (message : Buffer)
    (function_code address number_of_registers : Nat) (register_values : Buffer)
    (broadcast : Bool) : Buffer :=
  fun j =>
    if j < 6 then
      [self.expectedId broadcast, function_code, address / 256 % 256, address % 256,
        number_of_registers / 256 % 256, number_of_registers % 256].getD j 0
    else if j = 6 then (2 * number_of_registers) % 256
    else if j < 7 + 2 * number_of_registers then
      (if (j - 7) % 2 = 0 then register_values ((j - 7) / 2) / 256 % 256
       else register_values ((j - 7) / 2) % 256)
    else message j

/-! ## Sample data -/

/-- The codec of the worked example: `slave_id = 5`, `broadcast_id = 0`. -/
def sampleSlave : ModbusSlave := ⟨5, 0⟩

/-- A buffer holding the given bytes from offset 0, and zero after them. -/
def bufferOf (bytes : List Nat) : Buffer := fun j => bytes.getD j 0

/-- The response of slave 5 to a write of 2 registers at address `0x0010` with
function code `0x10`, check bytes appended by the Modbus CRC. -/
def sampleWriteResponse : Buffer :=
  Crc.modbus.AddCrcModbus (bufferOf [5, 0x10, 0, 0x10, 0, 2]) (bufferOf [5, 0x10, 0, 0x10, 0, 2])
    6 false

/-- A five-byte read response of slave 5 with byte count 0, check bytes appended by the
Modbus CRC. -/
def emptyReadResponse : Buffer :=
  Crc.modbus.AddCrcModbus (bufferOf [5, 3, 0]) (bufferOf [5, 3, 0]) 3 false

/-- A read response of slave 5 carrying the registers `0x1234` and `0x0001`, check
bytes appended by the Modbus CRC. -/
def sampleReadResponse : Buffer :=
  Crc.modbus.AddCrcModbus (bufferOf [5, 3, 4, 0x12, 0x34, 0, 1])
    (bufferOf [5, 3, 4, 0x12, 0x34, 0, 1]) 7 false

/-- The 8-byte frame made of the first six bytes of a write request followed by the
check bytes the CRC primitive appends over them: the response of a device that echoes
the request header. -/
def echoWriteResponse (k : Crc) (request : Buffer) : Buffer :=
  k.AddCrcModbus (fun j => if j < 6 then request j else 0)
    (fun j => if j < 6 then request j else 0) 6 false

/-! ## Basic facts about buffers, bytes and widths -/

@[simp] theorem Buffer.store_same (message : Buffer) (index value : Nat) :
    message.store index value index = value := by
  simp [Buffer.store]

theorem Buffer.store_other (message : Buffer) (index value j : Nat) (h : j ≠ index) :
    message.store index value j = message j := by
  simp [Buffer.store, h]

theorem Buffer.store_apply (message : Buffer) (index value j : Nat) :
    message.store index value j = if j = index then value else message j := rfl

/-- Two buffers that agree below `length` have the same first `length` bytes. -/
theorem Buffer.bytes_congr (m₁ m₂ : Buffer) (length : Nat)
    (h : ∀ j, j < length → m₁ j = m₂ j) : m₁.bytes length = m₂.bytes length := by
  unfold Buffer.bytes
  apply List.map_congr_left
  intro j hj
  exact h j (List.mem_range.mp hj)

theorem and_0xFF (x : Nat) : x &&& 0xFF = x % 256 :=
  Nat.and_pow_two_sub_one_eq_mod x 8

theorem shiftRight_8 (x : Nat) : x >>> kSizeOfByte = x / 256 :=
  Nat.shiftRight_eq_div_pow x 8

/-- The upper byte `word >> 8 & 0xFF` of a word. -/
theorem upper_byte (x : Nat) : (x >>> kSizeOfByte) &&& 0xFF = x / 256 % 256 := by
  rw [and_0xFF, shiftRight_8]

/-- The upper and the lower byte of a 16-bit value put together give the value back. -/
theorem upper_lower (x : Nat) (h : x < 65536) :
    x / 256 % 256 = x / 256 ∧ 256 * (x / 256) + x % 256 = x := by
  omega

theorem Target.two_pow_ge (t : Target) : 65536 ≤ 2 ^ t.bits := by
  have h : 2 ^ 16 ≤ 2 ^ t.bits := Nat.pow_le_pow_right (by decide) t.wide
  simpa using h

theorem Target.wrap_of_lt (t : Target) (x : Nat) (h : x < 2 ^ t.bits) : t.wrap x = x :=
  Nat.mod_eq_of_lt h

theorem Target.sub_of_le (t : Target) (a b : Nat) (hb : b ≤ a) (ha : a < 2 ^ t.bits) :
    t.sub a b = a - b := by
  unfold Target.sub
  rw [Nat.mod_eq_of_lt ha, Nat.mod_eq_of_lt (Nat.lt_of_le_of_lt hb ha)]
  have h : a + (2 ^ t.bits - b) = (a - b) + 2 ^ t.bits := by omega
  rw [h, Nat.add_mod_right]
  exact Nat.mod_eq_of_lt (by omega)

/-- The truncation of the `unsigned int` product to a byte keeps `2 * n` modulo 256. -/
theorem Target.wrap_mod_256 (t : Target) (x : Nat) : t.wrap x % 256 = x % 256 := by
  unfold Target.wrap
  have h : 2 ^ t.bits = 256 * 2 ^ (t.bits - 8) := by
    rw [show (256 : Nat) = 2 ^ 8 by norm_num, ← Nat.pow_add]
    congr 1
    have := t.wide
    omega
  rw [h, Nat.mod_mul_right_mod]

/-! ## The CRC primitive validates what it appended -/

theorem Crc.AddCrcModbus_apply (k : Crc) (message : Buffer) (length : Nat) (flag : Bool)
    (j : Nat) :
    k.AddCrcModbus message message length flag j =
      if j = length + 1 then (k.check flag (message.bytes length)).2
      else if j = length then (k.check flag (message.bytes length)).1
      else message j := by
  simp [Crc.AddCrcModbus, Buffer.store]

theorem Crc.AddCrcModbus_bytes (k : Crc) (message : Buffer) (length : Nat) (flag : Bool) :
    (k.AddCrcModbus message message length flag).bytes length = message.bytes length := by
  apply Buffer.bytes_congr
  intro j hj
  rw [Crc.AddCrcModbus_apply]
  have h₁ : j ≠ length + 1 := by omega
  have h₂ : j ≠ length := by omega
  simp [h₁, h₂]

theorem Crc.ValidateCrcModbus_iff (k : Crc) (buffer : Buffer) (total_length : Nat)
    (flag : Bool) :
    k.ValidateCrcModbus buffer total_length flag = true ↔
      buffer (total_length - 2) = (k.check flag (buffer.bytes (total_length - 2))).1 ∧
      buffer (total_length - 2 + 1) = (k.check flag (buffer.bytes (total_length - 2))).2 := by
  simp [Crc.ValidateCrcModbus]

/-- Appending the check bytes after `length` bytes gives a buffer that validates over
`length + 2` bytes. -/
theorem Crc.Validate_Add (k : Crc) (message : Buffer) (length : Nat) (flag : Bool) :
    k.ValidateCrcModbus (k.AddCrcModbus message message length flag) (length + 2) flag
      = true := by
  rw [Crc.ValidateCrcModbus_iff]
  simp only [Nat.add_sub_cancel]
  rw [Crc.AddCrcModbus_bytes]
  constructor
  · rw [Crc.AddCrcModbus_apply]; simp
  · rw [Crc.AddCrcModbus_apply]; simp

/-! ## Response validation, unfolded -/

/-- The checks of `ValidateWriteResponse`, one conjunct per early return. -/
theorem ValidateWriteResponse_checks (k : Crc) (self : ModbusSlave) (message : Buffer)
    (function_code address number_of_registers : Nat) (broadcast : Bool) :
    ValidateWriteResponse k self message function_code address number_of_registers broadcast
        = true ↔
      message 0 = self.expectedId broadcast ∧
      message 1 = function_code ∧
      message 2 = address / 256 % 256 ∧
      message 3 = address % 256 ∧
      message 4 = number_of_registers / 256 % 256 ∧
      message 5 = number_of_registers % 256 ∧
      k.ValidateCrcModbus message 8 false = true := by
  unfold ValidateWriteResponse ModbusSlave.expectedId
  simp only [shiftRight_8, and_0xFF, GetWriteResponseMessageLength]
  cases broadcast <;> simp

/-- The checks of `ValidateReadResponse`, one conjunct per early return. -/
theorem ValidateReadResponse_checks (t : Target) (k : Crc) (self : ModbusSlave)
    (message : Buffer) (function_code number_of_registers : Nat) (broadcast : Bool) :
    ValidateReadResponse t k self message function_code number_of_registers broadcast
        = true ↔
      message 0 = self.expectedId broadcast ∧
      message 1 = function_code ∧
      message 2 = (2 * number_of_registers) % 2 ^ t.bits ∧
      k.ValidateCrcModbus message (GetReadResponseMessageLength t number_of_registers) false
        = true := by
  unfold ValidateReadResponse ModbusSlave.expectedId
  simp only [Target.wrap, Nat.mul_comm number_of_registers 2]
  cases broadcast <;> simp

/-! ## Frame construction, unfolded -/

/-- One round of the register loop, when its two offsets are below `2 ^ bits`. -/
theorem writeRegister_apply (t : Target) (register_values message : Buffer) (i : Nat)
    (h : 8 + 2 * i < 2 ^ t.bits) (j : Nat) :
    writeRegister t register_values message i j =
      if j = 8 + 2 * i then register_values i % 256
      else if j = 7 + 2 * i then register_values i / 256 % 256
      else message j := by
  have hw0 : t.wrap (i * 2) = i * 2 := t.wrap_of_lt _ (by omega)
  have hw7 : t.wrap (7 + i * 2) = 7 + i * 2 := t.wrap_of_lt _ (by omega)
  have hw8 : t.wrap (8 + i * 2) = 8 + i * 2 := t.wrap_of_lt _ (by omega)
  unfold writeRegister
  simp only [kWriteRegisterValueUpperMessageIndex, kWriteRegisterValueLowerMessageIndex,
    hw0, hw7, hw8, Buffer.store_apply, shiftRight_8, and_0xFF, Nat.mul_comm 2 i]

/-- The register loop of `ConstructWriteMessage`: after `n` rounds whose offsets are
all below `2 ^ bits`, the bytes at offsets `7 .. 6 + 2 * n` hold the register values,
upper byte first, and every other byte is as before. -/
theorem foldl_writeRegister (t : Target) (register_values message : Buffer) (n : Nat)
    (h : 2 * n + 7 ≤ 2 ^ t.bits) (j : Nat) :
    (List.range n).foldl (writeRegister t register_values) message j =
      if 7 ≤ j ∧ j < 7 + 2 * n then
        (if (j - 7) % 2 = 0 then register_values ((j - 7) / 2) / 256 % 256
         else register_values ((j - 7) / 2) % 256)
      else message j := by
  induction n generalizing j with
  | zero =>
    have h₀ : ¬ (7 ≤ j ∧ j < 7 + 2 * 0) := by omega
    simp [h₀]
  | succ n ih =>
    rw [List.range_succ, List.foldl_append]
    simp only [List.foldl_cons, List.foldl_nil]
    rw [writeRegister_apply t _ _ n (by omega), ih (by omega)]
    by_cases h8 : j = 8 + 2 * n
    · subst h8
      have e₁ : (8 + 2 * n - 7) % 2 = 1 := by omega
      have e₂ : (8 + 2 * n - 7) / 2 = n := by omega
      have e₃ : 7 ≤ 8 + 2 * n ∧ 8 + 2 * n < 7 + 2 * (n + 1) := by omega
      simp [e₁, e₂, e₃]
    · by_cases h7 : j = 7 + 2 * n
      · subst h7
        have e₁ : (7 + 2 * n - 7) % 2 = 0 := by omega
        have e₂ : (7 + 2 * n - 7) / 2 = n := by omega
        have e₃ : 7 ≤ 7 + 2 * n ∧ 7 + 2 * n < 7 + 2 * (n + 1) := by omega
        simp [e₁, e₂, e₃]
      · have e₃ : (7 ≤ j ∧ j < 7 + 2 * (n + 1)) ↔ (7 ≤ j ∧ j < 7 + 2 * n) := by omega
        simp only [h8, h7, if_false, e₃]

/-- Every byte of the buffer after `ConstructReadMessage`. -/
theorem ConstructReadMessage_apply (t : Target) (k : Crc) (self : ModbusSlave)
    (message : Buffer) (function_code address number_of_registers : Nat) (broadcast : Bool)
    (j : Nat) :
    ConstructReadMessage t k self message function_code address number_of_registers
        broadcast j =
      let header := [self.expectedId broadcast, function_code, address / 256 % 256,
        address % 256, number_of_registers / 256 % 256, number_of_registers % 256]
      if j < 6 then header.getD j 0
      else if j = 6 then (k.check false header).1
      else if j = 7 then (k.check false header).2
      else message j := by
  have hsub : t.sub GetReadMessageLength kCrcLength = 6 := by
    have h₂ := t.two_pow_ge
    show t.sub 8 2 = 6
    rw [Target.sub_of_le t 8 2 (by omega) (by omega)]
  unfold ConstructReadMessage
  simp only [hsub, Crc.AddCrcModbus_apply, shiftRight_8, and_0xFF, ModbusSlave.expectedId]
  cases broadcast <;>
    simp [Buffer.bytes, List.range_succ, List.range_zero, Buffer.store_apply] <;>
    rcases j with _ | _ | _ | _ | _ | _ | _ | _ | j <;> simp <;>
    rw [if_neg (by omega)]

theorem GetReadResponseMessageLength_of_lt (t : Target) (n : Nat)
    (h : 2 * n + 5 < 2 ^ t.bits) : GetReadResponseMessageLength t n = 2 * n + 5 := by
  unfold GetReadResponseMessageLength
  simp only [kReadResponseDataLengthMessageIndex, kCrcLength]
  rw [t.wrap_of_lt (2 * n) (by omega), t.wrap_of_lt (2 * n + 1) (by omega),
    t.wrap_of_lt (2 + (2 * n + 1)) (by omega), t.wrap_of_lt (2 + (2 * n + 1) + 2) (by omega)]
  omega

theorem GetWriteMessageLength_of_lt (t : Target) (n : Nat)
    (h : 2 * n + 9 < 2 ^ t.bits) : GetWriteMessageLength t n = 2 * n + 9 := by
  unfold GetWriteMessageLength
  simp only [kWriteDataLengthMessageIndex, kCrcLength]
  rw [t.wrap_of_lt (2 * n) (by omega), t.wrap_of_lt (2 * n + 1) (by omega),
    t.wrap_of_lt (6 + (2 * n + 1)) (by omega), t.wrap_of_lt (6 + (2 * n + 1) + 2) (by omega)]
  omega

/-- The buffer after `ConstructWriteMessage`, for a frame whose length `2 * n + 9` is
below `2 ^ bits`: the body followed by the check bytes over its first `2 * n + 7`
bytes. -/
theorem ConstructWriteMessage_eq (t : Target) (k : Crc) (self : ModbusSlave)
    (message : Buffer) (function_code address n : Nat) (register_values : Buffer)
    (broadcast : Bool) (hfit : 2 * n + 9 < 2 ^ t.bits) :
    ConstructWriteMessage t k self message function_code address n register_values broadcast =
      k.AddCrcModbus
        (writeBody self message function_code address n register_values broadcast)
        (writeBody self message function_code address n register_values broadcast)
        (2 * n + 7) false := by
  have hsub : t.sub (GetWriteMessageLength t n) kCrcLength = 2 * n + 7 := by
    rw [GetWriteMessageLength_of_lt t n hfit]
    show t.sub (2 * n + 9) 2 = 2 * n + 7
    rw [Target.sub_of_le t _ 2 (by omega) hfit]
    omega
  unfold ConstructWriteMessage
  simp only [hsub]
  generalize hpre : List.foldl (writeRegister t register_values) _ _ = pre
  have hbody : pre = writeBody self message function_code address n register_values
      broadcast := by
    rw [← hpre]
    funext j
    rw [foldl_writeRegister t _ _ n (by omega)]
    simp only [writeBody, ModbusSlave.expectedId, shiftRight_8, and_0xFF, t.wrap_mod_256]
    by_cases h7 : 7 ≤ j
    · have h6 : ¬ j < 6 := by omega
      have e6 : j ≠ 6 := by omega
      have e5 : j ≠ 5 := by omega
      have e4 : j ≠ 4 := by omega
      have e3 : j ≠ 3 := by omega
      have e2 : j ≠ 2 := by omega
      have e1 : j ≠ 1 := by omega
      have e0 : j ≠ 0 := by omega
      cases broadcast <;> simp [Buffer.store_apply, h7, h6, e0, e1, e2, e3, e4, e5, e6]
    · have h7 : j < 7 := by omega
      interval_cases j <;> cases broadcast <;> simp [Buffer.store_apply]
  rw [hbody]

/-! ## Register extraction -/

/-- C1: evaluation of `GetReadRegisters` on a read response whose first register slot
holds the byte pair `(0x12, 0x34)`: output slot 0 receives `1`, the value of the logical
`||` of the two operands, and not `256 * 0x12 + 0x34 = 0x1234`. -/
theorem GetReadRegisters_pair_0x12_0x34 :
    sampleReadResponse 3 = 0x12 ∧ sampleReadResponse 4 = 0x34 ∧
    GetReadRegisters Target.avr sampleReadResponse 2 (fun _ => 0) 0 = 1 ∧
    GetReadRegisters Target.arm sampleReadResponse 2 (fun _ => 0) 0 = 1 ∧
    GetReadRegisters Target.avr sampleReadResponse 2 (fun _ => 0) 0
      ≠ 256 * sampleReadResponse 3 + sampleReadResponse 4 := by
  set_option maxRecDepth 100000 in decide

/-! ## Validation of responses -/

/-- C2: for 16-bit `address` and `number_of_registers`, `ValidateWriteResponse` returns
true exactly when byte 0 is the expected identifier (`broadcast_id_` under the flag,
`slave_id_` otherwise), byte 1 is the function code, bytes 2 and 3 are the upper and
lower byte of the address, bytes 4 and 5 are the upper and lower byte of the register
count, and the CRC primitive validates the first 8 bytes. -/
theorem ValidateWriteResponse_iff (k : Crc) (self : ModbusSlave) (message : Buffer)
    (function_code address number_of_registers : Nat) (broadcast : Bool)
    (ha : address < 65536) (hn : number_of_registers < 65536) :
    ValidateWriteResponse k self message function_code address number_of_registers broadcast
        = true ↔
      message 0 = (if broadcast then self.broadcast_id_ else self.slave_id_) ∧
      message 1 = function_code ∧
      message 2 = address / 256 ∧
      message 3 = address % 256 ∧
      message 4 = number_of_registers / 256 ∧
      message 5 = number_of_registers % 256 ∧
      k.ValidateCrcModbus message 8 false = true := by
  rw [ValidateWriteResponse_checks, (upper_lower address ha).1,
    (upper_lower number_of_registers hn).1]
  rfl

/-- Witness of C2: the sample write response is accepted, through the equivalence. -/
theorem ValidateWriteResponse_iff_witness :
    (0x10 : Nat) < 65536 ∧ (2 : Nat) < 65536 ∧
    ValidateWriteResponse Crc.modbus sampleSlave sampleWriteResponse 0x10 0x10 2 false
      = true :=
  ⟨by decide, by decide,
    (ValidateWriteResponse_iff Crc.modbus sampleSlave sampleWriteResponse 0x10 0x10 2 false
      (by decide) (by decide)).mpr (by set_option maxRecDepth 100000 in decide)⟩

/-- C3, as stated, fails on a 16-bit target: for `number_of_registers = 32768` the
product `number_of_registers * 2` wraps to 0, the declared length to 5, and the
five-byte response with byte count 0 is accepted although its byte-count byte differs
from `2 * 32768`. -/
theorem ValidateReadResponse_wraps :
    ValidateReadResponse Target.avr Crc.modbus sampleSlave emptyReadResponse 3 32768 false
      = true ∧
    emptyReadResponse 2 ≠ 2 * 32768 ∧
    ¬ (ValidateReadResponse Target.avr Crc.modbus sampleSlave emptyReadResponse 3 32768 false
        = true ↔
      emptyReadResponse 0 = sampleSlave.slave_id_ ∧ emptyReadResponse 1 = 3 ∧
      emptyReadResponse 2 = 2 * 32768 ∧
      Crc.modbus.ValidateCrcModbus emptyReadResponse
        (GetReadResponseMessageLength Target.avr 32768) false = true) := by
  set_option maxRecDepth 100000 in decide

/-- C3, amended: when `2 * number_of_registers` is below `2 ^ bits` (the width of
`unsigned int` and `size_t`), `ValidateReadResponse` returns true exactly when byte 0 is
the expected identifier, byte 1 is the function code, byte 2 equals
`2 * number_of_registers` and the CRC primitive validates the first
`GetReadResponseMessageLength` bytes; so a response whose byte-count byte differs from
`2 * number_of_registers` is rejected whatever its other bytes and CRC are.  In general
byte 2 is compared with `2 * number_of_registers` modulo `2 ^ bits`
(`ValidateReadResponse_checks`). -/
theorem ValidateReadResponse_iff (t : Target) (k : Crc) (self : ModbusSlave)
    (message : Buffer) (function_code number_of_registers : Nat) (broadcast : Bool)
    (h : 2 * number_of_registers < 2 ^ t.bits) :
    (ValidateReadResponse t k self message function_code number_of_registers broadcast
        = true ↔
      message 0 = (if broadcast then self.broadcast_id_ else self.slave_id_) ∧
      message 1 = function_code ∧
      message 2 = 2 * number_of_registers ∧
      k.ValidateCrcModbus message (GetReadResponseMessageLength t number_of_registers) false
        = true) ∧
    (message 2 ≠ 2 * number_of_registers →
      ValidateReadResponse t k self message function_code number_of_registers broadcast
        = false) := by
  have hiff := ValidateReadResponse_checks t k self message function_code
    number_of_registers broadcast
  rw [Nat.mod_eq_of_lt h] at hiff
  refine ⟨hiff, fun hne => ?_⟩
  cases hv : ValidateReadResponse t k self message function_code number_of_registers
    broadcast
  · rfl
  · exact absurd (hiff.mp hv).2.2.1 hne

/-- Witness of C3 (amended): on a 16-bit target the sample response for 2 registers is
accepted, and it is rejected when 3 registers are expected. -/
theorem ValidateReadResponse_iff_witness :
    2 * 2 < 2 ^ Target.avr.bits ∧ 2 * 3 < 2 ^ Target.avr.bits ∧
    ValidateReadResponse Target.avr Crc.modbus sampleSlave sampleReadResponse 3 2 false
      = true ∧
    ValidateReadResponse Target.avr Crc.modbus sampleSlave sampleReadResponse 3 3 false
      = false :=
  ⟨by decide, by decide,
    (ValidateReadResponse_iff Target.avr Crc.modbus sampleSlave sampleReadResponse 3 2 false
      (by decide)).1.mpr (by set_option maxRecDepth 100000 in decide),
    (ValidateReadResponse_iff Target.avr Crc.modbus sampleSlave sampleReadResponse 3 3 false
      (by decide)).2 (by decide)⟩

/-- The first six bytes of the echoed response are those of the request, and its eight
bytes validate. -/
theorem echoWriteResponse_spec (k : Crc) (request : Buffer) :
    (∀ j, j < 6 → echoWriteResponse k request j = request j) ∧
    k.ValidateCrcModbus (echoWriteResponse k request) 8 false = true := by
  constructor
  · intro j hj
    unfold echoWriteResponse
    rw [Crc.AddCrcModbus_apply]
    have h₁ : j ≠ 6 + 1 := by omega
    have h₂ : j ≠ 6 := by omega
    simp [h₁, h₂, hj]
  · exact Crc.Validate_Add k _ 6 false

/-- The six header bytes of a write request whose length is below `2 ^ bits`. -/
theorem ConstructWriteMessage_header (t : Target) (k : Crc) (self : ModbusSlave)
    (message : Buffer) (function_code address n : Nat) (register_values : Buffer)
    (broadcast : Bool) (hfit : 2 * n + 9 < 2 ^ t.bits) (j : Nat) (hj : j < 6) :
    ConstructWriteMessage t k self message function_code address n register_values
        broadcast j =
      [self.expectedId broadcast, function_code, address / 256 % 256, address % 256,
        n / 256 % 256, n % 256].getD j 0 := by
  rw [ConstructWriteMessage_eq t k self message function_code address n register_values
    broadcast hfit, Crc.AddCrcModbus_apply]
  have h₁ : j ≠ 2 * n + 7 + 1 := by omega
  have h₂ : j ≠ 2 * n + 7 := by omega
  simp only [h₁, h₂, if_false, writeBody, hj, if_true]

/-- C4 (write round trip): for a register count between 1 and 100 and any register
values, the response that echoes the first six bytes of the frame built by
`ConstructWriteMessage`, followed by the check bytes the CRC primitive appends over
them, is accepted by `ValidateWriteResponse` for the same parameters. -/
theorem write_round_trip (t : Target) (k : Crc) (self : ModbusSlave) (message : Buffer)
    (function_code address n : Nat) (register_values : Buffer) (broadcast : Bool)
    (_h₁ : 1 ≤ n) (h₂ : n ≤ 100) :
    ValidateWriteResponse k self
      (echoWriteResponse k
        (ConstructWriteMessage t k self message function_code address n register_values
          broadcast))
      function_code address n broadcast = true := by
  have hfit : 2 * n + 9 < 2 ^ t.bits := by
    have := t.two_pow_ge
    omega
  have hecho := echoWriteResponse_spec k
    (ConstructWriteMessage t k self message function_code address n register_values
      broadcast)
  have hhead := ConstructWriteMessage_header t k self message function_code address n
    register_values broadcast hfit
  rw [ValidateWriteResponse_checks]
  refine ⟨?_, ?_, ?_, ?_, ?_, ?_, hecho.2⟩
  · rw [hecho.1 0 (by omega), hhead 0 (by omega)]; rfl
  · rw [hecho.1 1 (by omega), hhead 1 (by omega)]; rfl
  · rw [hecho.1 2 (by omega), hhead 2 (by omega)]; rfl
  · rw [hecho.1 3 (by omega), hhead 3 (by omega)]; rfl
  · rw [hecho.1 4 (by omega), hhead 4 (by omega)]; rfl
  · rw [hecho.1 5 (by omega), hhead 5 (by omega)]; rfl

/-- Witness of C4: two registers written through the codec of the worked example on a
16-bit target, with the Modbus CRC. -/
theorem write_round_trip_witness :
    1 ≤ 2 ∧ 2 ≤ 100 ∧
    ValidateWriteResponse Crc.modbus sampleSlave
      (echoWriteResponse Crc.modbus
        (ConstructWriteMessage Target.avr Crc.modbus sampleSlave (bufferOf []) 0x10 0x10 2
          (bufferOf [0x1234, 0xABCD]) false))
      0x10 0x10 2 false = true :=
  ⟨by decide, by decide,
    write_round_trip Target.avr Crc.modbus sampleSlave (bufferOf []) 0x10 0x10 2
      (bufferOf [0x1234, 0xABCD]) false (by decide) (by decide)⟩

/-- C5: if `ValidateWriteResponse` accepts a write response, then replacing any single
one of its six header bytes (offsets 0 to 5) by a different value gives a message it
rejects for the same parameters. -/
theorem ValidateWriteResponse_header_flip (k : Crc) (self : ModbusSlave) (message : Buffer)
    (function_code address number_of_registers : Nat) (broadcast : Bool) (j value : Nat)
    (hacc : ValidateWriteResponse k self message function_code address number_of_registers
      broadcast = true)
    (hj : j < 6) (hvalue : value ≠ message j) :
    ValidateWriteResponse k self (message.store j value) function_code address
      number_of_registers broadcast = false := by
  cases hv : ValidateWriteResponse k self (message.store j value) function_code address
    number_of_registers broadcast
  · rfl
  · exfalso
    rw [ValidateWriteResponse_checks] at hacc hv
    obtain ⟨a0, a1, a2, a3, a4, a5, _⟩ := hacc
    obtain ⟨b0, b1, b2, b3, b4, b5, _⟩ := hv
    interval_cases j
    · rw [Buffer.store_same] at b0; exact hvalue (b0.trans a0.symm)
    · rw [Buffer.store_same] at b1; exact hvalue (b1.trans a1.symm)
    · rw [Buffer.store_same] at b2; exact hvalue (b2.trans a2.symm)
    · rw [Buffer.store_same] at b3; exact hvalue (b3.trans a3.symm)
    · rw [Buffer.store_same] at b4; exact hvalue (b4.trans a4.symm)
    · rw [Buffer.store_same] at b5; exact hvalue (b5.trans a5.symm)

/-- Witness of C5: the function-code byte of the accepted sample write response is
changed from `0x10` to `0x06`. -/
theorem ValidateWriteResponse_header_flip_witness :
    ValidateWriteResponse Crc.modbus sampleSlave sampleWriteResponse 0x10 0x10 2 false
      = true ∧
    1 < 6 ∧ 0x06 ≠ sampleWriteResponse 1 ∧
    ValidateWriteResponse Crc.modbus sampleSlave (sampleWriteResponse.store 1 0x06) 0x10
      0x10 2 false = false :=
  ⟨by set_option maxRecDepth 100000 in decide, by decide, by decide,
    ValidateWriteResponse_header_flip Crc.modbus sampleSlave sampleWriteResponse 0x10 0x10 2
      false 1 0x06 (by set_option maxRecDepth 100000 in decide) (by decide) (by decide)⟩

/-! ## Constructed requests -/

/-- C6: for 16-bit `address` and `number_of_registers`, the first eight bytes of the
buffer after `ConstructReadMessage` are the identifier (`broadcast_id_` under the flag,
`slave_id_` otherwise), the function code, the upper and lower byte of the address, the
upper and lower byte of the register count, and the two check bytes the CRC primitive
computes over those six bytes.  For `slave_id = 5`, `broadcast_id = 0`, function
`0x03`, address `0x0010` and count 2 the first six bytes are `05 03 00 10 00 02`. -/
theorem ConstructReadMessage_frame (t : Target) (k : Crc) (self : ModbusSlave)
    (message : Buffer) (function_code address number_of_registers : Nat) (broadcast : Bool)
    (ha : address < 65536) (hn : number_of_registers < 65536) :
    (ConstructReadMessage t k self message function_code address number_of_registers
        broadcast).bytes 8 =
      [if broadcast then self.broadcast_id_ else self.slave_id_, function_code,
        address / 256, address % 256, number_of_registers / 256, number_of_registers % 256,
        (k.check false
          [if broadcast then self.broadcast_id_ else self.slave_id_, function_code,
            address / 256, address % 256, number_of_registers / 256,
            number_of_registers % 256]).1,
        (k.check false
          [if broadcast then self.broadcast_id_ else self.slave_id_, function_code,
            address / 256, address % 256, number_of_registers / 256,
            number_of_registers % 256]).2] ∧
    (ConstructReadMessage t k sampleSlave message 0x03 0x0010 2 false).bytes 6 =
      [0x05, 0x03, 0x00, 0x10, 0x00, 0x02] := by
  have h8 : List.range 8 = [0, 1, 2, 3, 4, 5, 6, 7] := by decide
  have h6 : List.range 6 = [0, 1, 2, 3, 4, 5] := by decide
  constructor
  · simp only [Buffer.bytes, h8, List.map_cons, List.map_nil, ConstructReadMessage_apply,
      ModbusSlave.expectedId, (upper_lower address ha).1,
      (upper_lower number_of_registers hn).1]
    simp
  · simp only [Buffer.bytes, h6, List.map_cons, List.map_nil, ConstructReadMessage_apply,
      ModbusSlave.expectedId, sampleSlave]
    simp

/-- Witness of C6: the worked example on a 16-bit target with the Modbus CRC, whose
check bytes are `C4 4A`. -/
theorem ConstructReadMessage_frame_witness :
    (0x0010 : Nat) < 65536 ∧ (2 : Nat) < 65536 ∧
    (ConstructReadMessage Target.avr Crc.modbus sampleSlave (bufferOf []) 0x03 0x0010 2
      false).bytes 8 = [0x05, 0x03, 0x00, 0x10, 0x00, 0x02, 0xC4, 0x4A] :=
  ⟨by decide, by decide,
    (ConstructReadMessage_frame Target.avr Crc.modbus sampleSlave (bufferOf []) 0x03 0x0010 2
      false (by decide) (by decide)).1.trans (by set_option maxRecDepth 100000 in decide)⟩

/-- C10, as stated, fails on a 16-bit target: for the 16-bit register count 32768 the
product `2 * number_of_registers` wraps to 0, and the two length functions return 5 and
9 instead of `3 + 2 * 32768 + 2` and `7 + 2 * 32768 + 2`. -/
theorem length_formulas_wrap :
    (32768 : Nat) < 65536 ∧
    GetReadResponseMessageLength Target.avr 32768 = 5 ∧
    GetWriteMessageLength Target.avr 32768 = 9 ∧
    GetReadResponseMessageLength Target.avr 32768 ≠ 3 + 2 * 32768 + 2 ∧
    GetWriteMessageLength Target.avr 32768 ≠ 7 + 2 * 32768 + 2 := by
  decide

/-- C10, amended: `GetReadMessageLength() = 8` and `GetWriteResponseMessageLength() = 8`;
for every register count `n` with `2 * n + 9` below `2 ^ bits` (the width of
`unsigned int` and `size_t`), `GetReadResponseMessageLength(n) = 3 + 2 * n + 2` and
`GetWriteMessageLength(n) = 7 + 2 * n + 2`, the mathematical values with no
wrap-around; `n = 0` gives 5 and 9. -/
theorem length_formulas (t : Target) (n : Nat) (h : 2 * n + 9 < 2 ^ t.bits) :
    GetReadMessageLength = 8 ∧
    GetWriteResponseMessageLength = 8 ∧
    GetReadResponseMessageLength t n = 3 + 2 * n + 2 ∧
    GetWriteMessageLength t n = 7 + 2 * n + 2 ∧
    GetReadResponseMessageLength t 0 = 5 ∧
    GetWriteMessageLength t 0 = 9 := by
  have h₂ := t.two_pow_ge
  refine ⟨rfl, rfl, ?_, ?_, ?_, ?_⟩
  · rw [GetReadResponseMessageLength_of_lt t n (by omega)]; omega
  · rw [GetWriteMessageLength_of_lt t n h]; omega
  · rw [GetReadResponseMessageLength_of_lt t 0 (by omega)]
  · rw [GetWriteMessageLength_of_lt t 0 (by omega)]

/-- Witness of C10 (amended): every 16-bit register count on a 32-bit target, here the
largest one, and the largest admissible count on a 16-bit target. -/
theorem length_formulas_witness :
    2 * 65535 + 9 < 2 ^ Target.arm.bits ∧
    GetReadResponseMessageLength Target.arm 65535 = 3 + 2 * 65535 + 2 ∧
    GetWriteMessageLength Target.arm 65535 = 7 + 2 * 65535 + 2 ∧
    2 * 32763 + 9 < 2 ^ Target.avr.bits ∧
    GetWriteMessageLength Target.avr 32763 = 7 + 2 * 32763 + 2 :=
  ⟨by decide, (length_formulas Target.arm 65535 (by decide)).2.2.1,
    (length_formulas Target.arm 65535 (by decide)).2.2.2.1, by decide,
    (length_formulas Target.avr 32763 (by decide)).2.2.2.1⟩

/-! ## What construction writes -/

/-- Below offset `7 + 2 * n` the body of a write request does not depend on the buffer
it is built in. -/
theorem writeBody_below (self : ModbusSlave) (message message₀ : Buffer)
    (function_code address n : Nat) (register_values : Buffer) (broadcast : Bool) (j : Nat)
    (hj : j < 7 + 2 * n) :
    writeBody self message function_code address n register_values broadcast j =
      writeBody self message₀ function_code address n register_values broadcast j := by
  simp only [writeBody, hj, if_true]

/-- From offset `7 + 2 * n` on the body of a write request is the buffer it is built
in. -/
theorem writeBody_above (self : ModbusSlave) (message : Buffer)
    (function_code address n : Nat) (register_values : Buffer) (broadcast : Bool) (j : Nat)
    (hj : 7 + 2 * n ≤ j) :
    writeBody self message function_code address n register_values broadcast j =
      message j := by
  have h₁ : ¬ j < 6 := by omega
  have h₂ : j ≠ 6 := by omega
  have h₃ : ¬ j < 7 + 2 * n := by omega
  simp only [writeBody, h₁, h₂, h₃, if_false]

/-- C11, as stated, fails on a 16-bit target: for `number_of_registers = 32764` the
declared length `GetWriteMessageLength` wraps to 1, yet `ConstructWriteMessage` stores
the function code at offset 1, which is not below the declared length, so a byte at an
offset at or past the declared length is changed (here from `0` to `0x10`). -/
theorem ConstructWriteMessage_past_declared_length :
    GetWriteMessageLength Target.avr 32764 = 1 ∧
    bufferOf [] 1 = 0 ∧
    ConstructWriteMessage Target.avr Crc.modbus sampleSlave (bufferOf []) 0x10 0x10 32764
      (bufferOf []) false 1 = 0x10 ∧
    ¬ (∀ j, GetWriteMessageLength Target.avr 32764 ≤ j →
        ConstructWriteMessage Target.avr Crc.modbus sampleSlave (bufferOf []) 0x10 0x10 32764
          (bufferOf []) false j = bufferOf [] j) := by
  have hlen : GetWriteMessageLength Target.avr 32764 = 1 := by decide
  have hsub : Target.avr.sub (GetWriteMessageLength Target.avr 32764) kCrcLength = 65535 := by
    decide
  have hbyte : ConstructWriteMessage Target.avr Crc.modbus sampleSlave (bufferOf []) 0x10 0x10
      32764 (bufferOf []) false 1 = 0x10 := by
    unfold ConstructWriteMessage
    simp only [hsub]
    rw [Crc.AddCrcModbus_apply, foldl_writeRegister Target.avr _ _ 32764 (by decide)]
    simp [Buffer.store_apply]
  refine ⟨hlen, rfl, hbyte, fun hall => ?_⟩
  have h₁ := hall 1 (by rw [hlen])
  rw [hbyte] at h₁
  exact absurd h₁ (by decide)

/-- C11, amended: for a register count `n` with `2 * n + 9` below `2 ^ bits` (so that
the declared length is `2 * n + 9`, not wrapped), the buffer after
`ConstructWriteMessage` has, at every offset below `GetWriteMessageLength(n)`, a byte
that does not depend on the prior contents of the buffer, and at every offset from
`GetWriteMessageLength(n)` on the byte it had before; likewise the buffer after
`ConstructReadMessage`, for every register count, with `GetReadMessageLength() = 8` as
the bound. -/
theorem construct_frame_effect (t : Target) (k : Crc) (self : ModbusSlave)
    (message message₀ : Buffer) (function_code address n : Nat) (register_values : Buffer)
    (broadcast : Bool) (hfit : 2 * n + 9 < 2 ^ t.bits) :
    (∀ j, j < GetWriteMessageLength t n →
      ConstructWriteMessage t k self message function_code address n register_values
          broadcast j =
        ConstructWriteMessage t k self message₀ function_code address n register_values
          broadcast j) ∧
    (∀ j, GetWriteMessageLength t n ≤ j →
      ConstructWriteMessage t k self message function_code address n register_values
          broadcast j = message j) ∧
    (∀ n₀ j, j < GetReadMessageLength →
      ConstructReadMessage t k self message function_code address n₀ broadcast j =
        ConstructReadMessage t k self message₀ function_code address n₀ broadcast j) ∧
    (∀ n₀ j, GetReadMessageLength ≤ j →
      ConstructReadMessage t k self message function_code address n₀ broadcast j =
        message j) := by
  have hlen := GetWriteMessageLength_of_lt t n hfit
  have hbytes : (writeBody self message function_code address n register_values
      broadcast).bytes (2 * n + 7) =
      (writeBody self message₀ function_code address n register_values broadcast).bytes
        (2 * n + 7) :=
    Buffer.bytes_congr _ _ _ (fun j hj =>
      writeBody_below self message message₀ function_code address n register_values
        broadcast j (by omega))
  refine ⟨fun j hj => ?_, fun j hj => ?_, fun n₀ j hj => ?_, fun n₀ j hj => ?_⟩
  · rw [hlen] at hj
    rw [ConstructWriteMessage_eq t k self message function_code address n register_values
        broadcast hfit,
      ConstructWriteMessage_eq t k self message₀ function_code address n register_values
        broadcast hfit, Crc.AddCrcModbus_apply, Crc.AddCrcModbus_apply, hbytes]
    by_cases h₁ : j = 2 * n + 7 + 1
    · simp only [h₁, if_true]
    · by_cases h₂ : j = 2 * n + 7
      · simp only [h₂, if_true]
      · simp only [h₁, h₂, if_false]
        exact writeBody_below self message message₀ function_code address n register_values
          broadcast j (by omega)
  · rw [hlen] at hj
    rw [ConstructWriteMessage_eq t k self message function_code address n register_values
      broadcast hfit, Crc.AddCrcModbus_apply]
    have h₁ : j ≠ 2 * n + 7 + 1 := by omega
    have h₂ : j ≠ 2 * n + 7 := by omega
    simp only [h₁, h₂, if_false]
    exact writeBody_above self message function_code address n register_values broadcast j
      (by omega)
  · have hj8 : j < 8 := hj
    rw [ConstructReadMessage_apply, ConstructReadMessage_apply]
    by_cases h₁ : j < 6
    · simp only [h₁, if_true]
    · by_cases h₂ : j = 6
      · simp only [h₂]; simp
      · have h₃ : j = 7 := by omega
        simp only [h₃]; simp
  · have hj8 : 8 ≤ j := hj
    rw [ConstructReadMessage_apply]
    have h₁ : ¬ j < 6 := by omega
    have h₂ : j ≠ 6 := by omega
    have h₃ : j ≠ 7 := by omega
    simp only [h₁, h₂, h₃, if_false]

/-- Witness of C11 (amended): two registers on a 16-bit target, built in a zeroed buffer
and in a buffer filled with `0xEE`; byte 12 of the 13-byte frame is the same in both,
byte 13 is left as it was. -/
theorem construct_frame_effect_witness :
    2 * 2 + 9 < 2 ^ Target.avr.bits ∧ 12 < GetWriteMessageLength Target.avr 2 ∧
    GetWriteMessageLength Target.avr 2 ≤ 13 ∧
    ConstructWriteMessage Target.avr Crc.modbus sampleSlave (fun _ => 0xEE) 0x10 0x10 2
        (bufferOf [0x1234, 0xABCD]) false 12 =
      ConstructWriteMessage Target.avr Crc.modbus sampleSlave (bufferOf []) 0x10 0x10 2
        (bufferOf [0x1234, 0xABCD]) false 12 ∧
    ConstructWriteMessage Target.avr Crc.modbus sampleSlave (fun _ => 0xEE) 0x10 0x10 2
        (bufferOf [0x1234, 0xABCD]) false 13 = 0xEE :=
  ⟨by decide, by decide, by decide,
    (construct_frame_effect Target.avr Crc.modbus sampleSlave (fun _ => 0xEE) (bufferOf [])
      0x10 0x10 2 (bufferOf [0x1234, 0xABCD]) false (by decide)).1 12 (by decide),
    (construct_frame_effect Target.avr Crc.modbus sampleSlave (fun _ => 0xEE) (bufferOf [])
      0x10 0x10 2 (bufferOf [0x1234, 0xABCD]) false (by decide)).2.1 13 (by decide)⟩

/-! ## Broadcast addressing -/

/-- C12: for a codec whose `slave_id_` differs from its `broadcast_id_`, and for both
`ValidateWriteResponse` and `ValidateReadResponse`: under the broadcast flag a message
whose byte 0 equals `slave_id_` is rejected whatever its other bytes and CRC are, and an
accepted message has byte 0 equal to `broadcast_id_`; without the flag a message whose
byte 0 equals `broadcast_id_` is rejected, and an accepted message has byte 0 equal to
`slave_id_`. -/
theorem validate_addressing (t : Target) (k : Crc) (self : ModbusSlave) (message : Buffer)
    (function_code address number_of_registers : Nat)
    (hids : self.slave_id_ ≠ self.broadcast_id_) :
    (message 0 = self.slave_id_ →
      ValidateWriteResponse k self message function_code address number_of_registers true
        = false ∧
      ValidateReadResponse t k self message function_code number_of_registers true
        = false) ∧
    (ValidateWriteResponse k self message function_code address number_of_registers true
        = true → message 0 = self.broadcast_id_) ∧
    (ValidateReadResponse t k self message function_code number_of_registers true
        = true → message 0 = self.broadcast_id_) ∧
    (message 0 = self.broadcast_id_ →
      ValidateWriteResponse k self message function_code address number_of_registers false
        = false ∧
      ValidateReadResponse t k self message function_code number_of_registers false
        = false) ∧
    (ValidateWriteResponse k self message function_code address number_of_registers false
        = true → message 0 = self.slave_id_) ∧
    (ValidateReadResponse t k self message function_code number_of_registers false
        = true → message 0 = self.slave_id_) := by
  have hw := fun b => ValidateWriteResponse_checks k self message function_code address
    number_of_registers b
  have hr := fun b => ValidateReadResponse_checks t k self message function_code
    number_of_registers b
  have wt : ValidateWriteResponse k self message function_code address number_of_registers
      true = true → message 0 = self.broadcast_id_ := fun h => ((hw true).mp h).1
  have rt : ValidateReadResponse t k self message function_code number_of_registers true
      = true → message 0 = self.broadcast_id_ := fun h => ((hr true).mp h).1
  have wf : ValidateWriteResponse k self message function_code address number_of_registers
      false = true → message 0 = self.slave_id_ := fun h => ((hw false).mp h).1
  have rf : ValidateReadResponse t k self message function_code number_of_registers false
      = true → message 0 = self.slave_id_ := fun h => ((hr false).mp h).1
  refine ⟨fun h0 => ⟨?_, ?_⟩, wt, rt, fun h0 => ⟨?_, ?_⟩, wf, rf⟩
  · cases hv : ValidateWriteResponse k self message function_code address
      number_of_registers true
    · rfl
    · exact absurd (h0.symm.trans (wt hv)) hids
  · cases hv : ValidateReadResponse t k self message function_code number_of_registers true
    · rfl
    · exact absurd (h0.symm.trans (rt hv)) hids
  · cases hv : ValidateWriteResponse k self message function_code address
      number_of_registers false
    · rfl
    · exact absurd ((wf hv).symm.trans h0) hids
  · cases hv : ValidateReadResponse t k self message function_code number_of_registers false
    · rfl
    · exact absurd ((rf hv).symm.trans h0) hids

/-- Witness of C12: the sample write response, whose byte 0 is the slave identifier 5
and whose CRC is valid, is rejected under the broadcast flag by the codec with
identifiers 5 and 0. -/
theorem validate_addressing_witness :
    sampleSlave.slave_id_ ≠ sampleSlave.broadcast_id_ ∧
    sampleWriteResponse 0 = sampleSlave.slave_id_ ∧
    ValidateWriteResponse Crc.modbus sampleSlave sampleWriteResponse 0x10 0x10 2 true
      = false :=
  ⟨by decide, by decide,
    ((validate_addressing Target.avr Crc.modbus sampleSlave sampleWriteResponse 0x10 0x10 2
      (by decide)).1 (by decide)).1⟩

/-! ## The identity fields -/

/-- C15: for every register count `n` with `128 ≤ n ≤ 32767`, `ValidateReadResponse`
returns false for every message (whose byte-count byte, like every byte, is below 256),
function code and broadcast flag: byte 2 is compared with `n * 2`, which does not wrap
at any width of at least 16 bits and is at least 256.  `ConstructWriteMessage`, for its
part, stores `(2 * n) mod 256`, a value below 256 that differs from `2 * n`, in its
byte-count byte (for `n ≤ 32763`, where the write frame fits every target). -/
theorem ValidateReadResponse_rejects_large (t : Target) (k : Crc) (self : ModbusSlave)
    (message : Buffer) (function_code n : Nat) (broadcast : Bool)
    (hlow : 128 ≤ n) (hhigh : n ≤ 32767) (hbyte : message 2 < 256) :
    ValidateReadResponse t k self message function_code n broadcast = false ∧
    256 ≤ t.wrap (n * 2) ∧
    (n ≤ 32763 → ∀ (buffer : Buffer) (address : Nat) (register_values : Buffer),
      ConstructWriteMessage t k self buffer function_code address n register_values
          broadcast 6 = (2 * n) % 256 ∧
      ConstructWriteMessage t k self buffer function_code address n register_values
          broadcast 6 ≠ 2 * n) := by
  have h₂ := t.two_pow_ge
  have hwrap : t.wrap (n * 2) = n * 2 := t.wrap_of_lt _ (by omega)
  refine ⟨?_, by rw [hwrap]; omega, fun hn buffer address register_values => ?_⟩
  · cases hv : ValidateReadResponse t k self message function_code n broadcast
    · rfl
    · exfalso
      have h := ((ValidateReadResponse_checks t k self message function_code n
        broadcast).mp hv).2.2.1
      rw [Nat.mod_eq_of_lt (by omega)] at h
      omega
  · have h6 : ConstructWriteMessage t k self buffer function_code address n register_values
        broadcast 6 = (2 * n) % 256 := by
      rw [ConstructWriteMessage_eq t k self buffer function_code address n register_values
        broadcast (by omega), Crc.AddCrcModbus_apply]
      have h₃ : 6 ≠ 2 * n + 7 + 1 := by omega
      have h₄ : 6 ≠ 2 * n + 7 := by omega
      simp [h₃, h₄, writeBody]
    rw [h6]
    exact ⟨rfl, by omega⟩

/-- Witness of C15: a response announcing `0xFF` bytes, its CRC appended by the Modbus
CRC, is rejected when 128 registers are expected on a 16-bit target. -/
theorem ValidateReadResponse_rejects_large_witness :
    128 ≤ 128 ∧ 128 ≤ 32767 ∧
    Crc.modbus.AddCrcModbus (bufferOf [5, 3, 0xFF]) (bufferOf [5, 3, 0xFF]) 258 false 2
      < 256 ∧
    ValidateReadResponse Target.avr Crc.modbus sampleSlave
      (Crc.modbus.AddCrcModbus (bufferOf [5, 3, 0xFF]) (bufferOf [5, 3, 0xFF]) 258 false)
      3 128 false = false :=
  ⟨by decide, by decide, by decide,
    (ValidateReadResponse_rejects_large Target.avr Crc.modbus sampleSlave
      (Crc.modbus.AddCrcModbus (bufferOf [5, 3, 0xFF]) (bufferOf [5, 3, 0xFF]) 258 false)
      3 128 false (by decide) (by decide) (by decide)).1⟩

/-! ## What register extraction stores -/

end Modbus
